import Mathlib

/-!
# Verification of the `db.py` persistence layer

Shallow embedding of `src/db.py` in its default configuration (`DATABASE_URL`
unset, hence `USE_POSTGRES = False`: the SQLite branch of every function).

Modelling conventions:
* Each table is a `List` of row structures; the whole store is a `DB` value.
* Each `db.py` function that mutates state becomes a function `DB → ... → DB`
  describing the state committed by one (sequential) call; readers become pure
  functions of `DB`.  `AUTOINCREMENT` row ids are modelled by per-table
  counters carried in `DB`.
* `datetime.utcnow().isoformat()` timestamps are passed in as explicit `now`
  arguments of type `String`; SQLite compares and `MAX`es `TEXT` columns by
  bytewise (BINARY) comparison, modelled by the codepoint-lexicographic
  order `strLe` (the two agree on UTF-8 text).
* Nullable columns that the code guards with `COALESCE` (or reads with Python
  `bool(...)`) are `Option Int`; columns the code always binds are plain.
* Text case folding: SQLite's `lower()` and default `LIKE` fold case only in
  the ASCII range, modelled exactly by `asciiLower`.  Python's `str.lower()`
  is full-Unicode and is not reimplemented: where its output matters (the
  `LIKE` pattern of `search_books`' fallback is built from `query.lower()` in
  Python), the model takes the lowered query as an input — see
  `FtsOutcome.err`.  The two lowerings agree on ASCII text.
-/

namespace DbPy

/-- SQL `COALESCE(x, 0)` for a nullable integer column. -/
def coalesce0 : Option Int → Int
  | none => 0
  | some n => n

/-- ASCII-range case folding: maps `A..Z` (codepoints 65–90) to `a..z`,
leaves every other character unchanged.  This is SQLite's `lower()` /
default `LIKE` folding, and agrees with Python's `str.lower()` on ASCII. -/
def asciiLower (c : Char) : Char :=
  if 65 ≤ c.toNat ∧ c.toNat ≤ 90 then Char.ofNat (c.toNat + 32) else c

/-- The character list of a string after ASCII case folding. -/
def lowList (s : String) : List Char := s.data.map asciiLower

/-- Lexicographic order on character lists by codepoint.  SQLite compares
`TEXT` values bytewise (BINARY collation), which on UTF-8 text coincides with
codepoint-lexicographic order. -/
def lexLe : List Char → List Char → Bool
  | [], _ => true
  | _ :: _, [] => false
  | a :: s, b :: t => if a = b then lexLe s t else decide (a < b)

/-- SQL `<=` on two `TEXT` values. -/
def strLe (a b : String) : Prop := lexLe a.data b.data = true

instance (a b : String) : Decidable (strLe a b) := by unfold strLe; infer_instance

/-- SQL `MAX` of two `TEXT` values (BINARY collation). -/
def strMax (a b : String) : String := if strLe a b then b else a

/-- SQL `MAX` over a `TEXT` column of a row group (groups are nonempty, and
every ISO timestamp is `≥ ""`, so the `""` seed is inert). -/
def strMaxList (l : List String) : String := l.foldl strMax ""

/-! ## Row structures and the store -/

/-- A row of `users` (`user_id` PRIMARY KEY, `is_blocked` DEFAULT 0). -/
structure UserRow where
  user_id : Int
  username : String
  first_name : String
  joined_at : String
  is_blocked : Option Int
deriving Repr, DecidableEq

/-- A row of `categories`. -/
structure CategoryRow where
  id : Int
  name : String
deriving Repr, DecidableEq

/-- A row of `books` (`total_size`, `duration_seconds`, `downloads` all
DEFAULT 0 and nullable; `purchase_link` added by `ALTER TABLE`, default NULL). -/
structure BookRow where
  id : Int
  title : String
  author : String
  category_id : Option Int
  type : String
  total_size : Option Int
  duration_seconds : Option Int
  created_at : String
  downloads : Option Int
  purchase_link : Option String
deriving Repr, DecidableEq

/-- A row of `book_parts`. -/
structure BookPartRow where
  id : Int
  book_id : Int
  file_id : String
  part_index : Int
  size : Int
  duration_seconds : Int
deriving Repr, DecidableEq

/-- A row of `saved_books` (PRIMARY KEY (user_id, book_id)). -/
structure SavedBookRow where
  user_id : Int
  book_id : Int
  created_at : String
deriving Repr, DecidableEq

/-- A row of `missing_queries`. -/
structure MissingQueryRow where
  id : Int
  user_id : Int
  query : String
  created_at : String
deriving Repr, DecidableEq

/-- A row of `wishes` (`is_seen` DEFAULT 0, read through `COALESCE`). -/
structure WishRow where
  id : Int
  user_id : Int
  text : String
  created_at : String
  is_seen : Option Int
deriving Repr, DecidableEq

/-- The whole SQLite store.  The `next_*` counters model the AUTOINCREMENT
sequences of the integer-primary-key tables. -/
structure DB where
  users : List UserRow
  categories : List CategoryRow
  books : List BookRow
  book_parts : List BookPartRow
  saved_books : List SavedBookRow
  missing_queries : List MissingQueryRow
  wishes : List WishRow
  next_book_id : Int
  next_part_id : Int
  next_missing_id : Int
  next_wish_id : Int
deriving Repr, DecidableEq

/-- The freshly initialised store (`init_db` on an absent `data.db`). -/
def emptyDB : DB :=
  { users := [], categories := [], books := [], book_parts := []
    saved_books := [], missing_queries := [], wishes := []
    next_book_id := 1, next_part_id := 1, next_missing_id := 1, next_wish_id := 1 }

/-! ## Operations of `db.py` (SQLite branch) -/

/-- `SELECT ... FROM users WHERE user_id=?` followed by `fetchone()`. -/
def findUser (db : DB) (uid : Int) : Option UserRow :=
  db.users.find? (fun u => u.user_id == uid)

/-- `db.upsert_user`: `SELECT user_id FROM users WHERE user_id=?`; if a row
exists, `UPDATE users SET username=?, first_name=?`, else
`INSERT INTO users(user_id, username, first_name, joined_at)` (so `is_blocked`
takes its schema default 0). -/
def upsert_user (db : DB) (uid : Int) (username first_name now : String) : DB :=
  if db.users.any (fun u => u.user_id == uid) then
    { db with users := db.users.map (fun u =>
        if u.user_id == uid then { u with username := username, first_name := first_name } else u) }
  else
    { db with users := db.users ++ [⟨uid, username, first_name, now, some 0⟩] }

/-- `db.set_block`: `UPDATE users SET is_blocked=? WHERE user_id=?` with
parameter `1 if blocked else 0`. -/
def set_block (db : DB) (uid : Int) (blocked : Bool) : DB :=
  { db with users := db.users.map (fun u =>
      if u.user_id == uid then { u with is_blocked := some (if blocked then 1 else 0) } else u) }

/-- Python `bool(x)` on a nullable integer column value: `bool(None) = False`,
`bool(n) = (n != 0)`. -/
def pyBool : Option Int → Bool
  | none => false
  | some n => n != 0

/-- `db.is_blocked`: `SELECT is_blocked FROM users WHERE user_id=?`;
`bool(row[0]) if row else False`. -/
def is_blocked (db : DB) (uid : Int) : Bool :=
  match findUser db uid with
  | some u => pyBool u.is_blocked
  | none => false

/-- `db.create_book`: `INSERT INTO books(title, author, category_id, type,
created_at)`; the aggregate columns and `downloads` take their schema default
0, `purchase_link` is NULL; returns `cur.lastrowid`. -/
def create_book (db : DB) (title author : String) (category_id : Option Int)
    (ty now : String) : DB × Int :=
  let bid := db.next_book_id
  ({ db with
      books := db.books ++ [⟨bid, title, author, category_id, ty, some 0, some 0, now, some 0, none⟩]
      next_book_id := bid + 1 }, bid)

/-- `db.delete_book`: `DELETE FROM books WHERE id=?`.  The connection opened by
`connect()` never executes `PRAGMA foreign_keys = ON` (SQLite's pragma is
per-connection and only `init_db`'s own connection sets it), so the declared
`ON DELETE CASCADE` actions of `book_parts` and `saved_books` do not run: only
the `books` row itself is removed. -/
def delete_book (db : DB) (bid : Int) : DB :=
  { db with books := db.books.filter (fun b => b.id != bid) }

/-- `db.delete_category`: `DELETE FROM categories WHERE id=?`.  As in
`delete_book`, foreign keys are not enabled on this connection, so the
declared `ON DELETE SET NULL` action on `books.category_id` does not run. -/
def delete_category (db : DB) (cid : Int) : DB :=
  { db with categories := db.categories.filter (fun c => c.id != cid) }

/-- First statement of `db.add_book_part`:
`INSERT INTO book_parts(book_id, file_id, part_index, size, duration_seconds)`. -/
def insertPartRow (db : DB) (bid : Int) (fid : String) (idx sz du : Int) : DB :=
  { db with
      book_parts := db.book_parts ++ [⟨db.next_part_id, bid, fid, idx, sz, du⟩]
      next_part_id := db.next_part_id + 1 }

/-- Second statement of `db.add_book_part`: `UPDATE books SET total_size =
COALESCE(total_size,0) + ?, duration_seconds = COALESCE(duration_seconds,0) + ?
WHERE id=?`. -/
def updateBookTotals (db : DB) (bid sz du : Int) : DB :=
  { db with books := db.books.map (fun b =>
      if b.id == bid then
        { b with total_size := some (coalesce0 b.total_size + sz)
                 duration_seconds := some (coalesce0 b.duration_seconds + du) }
      else b) }

/-- `db.add_book_part` (the state committed by a successful call): the part
insert followed by the aggregate update, then `conn.commit()`. -/
def add_book_part (db : DB) (bid : Int) (fid : String) (idx sz du : Int) : DB :=
  updateBookTotals (insertPartRow db bid fid idx sz du) bid sz du

/-- `db.inc_download`: `UPDATE books SET downloads = COALESCE(downloads,0) + 1
WHERE id=?`. -/
def inc_download (db : DB) (bid : Int) : DB :=
  { db with books := db.books.map (fun b =>
      if b.id == bid then { b with downloads := some (coalesce0 b.downloads + 1) } else b) }

/-- `db.add_saved_book`: `INSERT OR IGNORE INTO saved_books(user_id, book_id,
created_at)` — ignored exactly when a row with the same PRIMARY KEY
`(user_id, book_id)` already exists. -/
def add_saved_book (db : DB) (uid bid : Int) (now : String) : DB :=
  if db.saved_books.any (fun r => r.user_id == uid && r.book_id == bid) then db
  else { db with saved_books := db.saved_books ++ [⟨uid, bid, now⟩] }

/-- `db.save_missing_query`: `INSERT INTO missing_queries(user_id, query,
created_at)`. -/
def save_missing_query (db : DB) (uid : Int) (q now : String) : DB :=
  { db with
      missing_queries := db.missing_queries ++ [⟨db.next_missing_id, uid, q, now⟩]
      next_missing_id := db.next_missing_id + 1 }

/-- `db.add_wish`: `INSERT INTO wishes(user_id, text, created_at)`
(`is_seen` takes its schema default 0). -/
def add_wish (db : DB) (uid : Int) (text now : String) : DB :=
  { db with
      wishes := db.wishes ++ [⟨db.next_wish_id, uid, text, now, some 0⟩]
      next_wish_id := db.next_wish_id + 1 }

/-! ## Full-text search (`db.search_books`, SQLite branch) -/

/-- One `LIKE` comparison of a pattern character against a text character:
SQLite's default `LIKE` is case-insensitive in the ASCII range. -/
def charLike (p c : Char) : Bool := asciiLower p == asciiLower c

/-- SQLite `LIKE` pattern matching (no `ESCAPE` clause): `%` matches any
sequence of characters, `_` matches any single character, and any other
pattern character matches one text character up to ASCII case. -/
def likeMatch : List Char → List Char → Bool
  | [], t => t.isEmpty
  | p :: ps, t =>
    if p = '%' then
      likeMatch ps t ||
        (match t with
          | [] => false
          | _ :: ts => likeMatch (p :: ps) ts)
    else
      match t with
      | [] => false
      | c :: ts => (if p = '_' then true else charLike p c) && likeMatch ps ts
termination_by p t => p.length + t.length

/-- The match condition of the fallback branch of `db.search_books`: with
`q = f"%{query.lower()}%"`, `WHERE lower(title) LIKE ? OR lower(author) LIKE ?`.
`qlow` is the character list of `query.lower()` — computed by Python's
full-Unicode lowering, so it is supplied to the model as a value rather than
recomputed (the embedding does not reimplement Unicode case mapping); for
ASCII queries it equals `lowList query`.  The column side `lower(title)` /
`lower(author)` is SQLite's ASCII-only lowering, `lowList`. -/
def fallbackMatch (qlow : List Char) (b : BookRow) : Bool :=
  likeMatch ('%' :: (qlow ++ ['%'])) (lowList b.title) ||
    likeMatch ('%' :: (qlow ++ ['%'])) (lowList b.author)

/-- `ORDER BY downloads DESC, created_at DESC` (the fallback branch's whole
sort key, and the tail of the FTS branch's): row `x` may come no later than
row `y`. -/
def dlOrd (x y : BookRow) : Prop :=
  coalesce0 y.downloads < coalesce0 x.downloads ∨
    (coalesce0 x.downloads = coalesce0 y.downloads ∧ strLe y.created_at x.created_at)

instance (x y : BookRow) : Decidable (dlOrd x y) := by unfold dlOrd; infer_instance

/-- `ORDER BY bm25(f) ASC, downloads DESC, created_at DESC` (the FTS branch).
FTS5's `bm25` assigns better matches *lower* values, hence the `ASC`. -/
def ftsOrd (bm25 : BookRow → Int) (x y : BookRow) : Prop :=
  bm25 x < bm25 y ∨ (bm25 x = bm25 y ∧ dlOrd x y)

instance (f : BookRow → Int) (x y : BookRow) : Decidable (ftsOrd f x y) := by
  unfold ftsOrd; infer_instance

/-- The ordering the spec claims: relevance rank descending, ties broken by
download count descending, then creation time descending. -/
def rankOrd (rank : BookRow → Int) (x y : BookRow) : Prop :=
  rank y < rank x ∨ (rank x = rank y ∧ dlOrd x y)

/-- Outcome of the FTS5 attempt inside `db.search_books`: either the `MATCH`
statement executes — `m` is the engine's match predicate for the query and
`bm25` its score — or it raises (`books_fts` absent, or the query is not
valid FTS5 syntax) and the bare `except:` takes the `LIKE` fallback, whose
pattern is built from `query.lower()`; `err` carries that Python-lowered
query text `qlow` (for ASCII queries, `qlow = lowList query`). -/
inductive FtsOutcome where
  | ok (m : BookRow → Bool) (bm25 : BookRow → Int)
  | err (qlow : List Char)

/-- Results admitted by `SELECT ... WHERE <matches> ORDER BY <ord> LIMIT ?`:
an ordering of the matching rows consistent with the sort key, truncated to
`limit` rows.  A relation, because SQL leaves the relative order of rows tied
on the whole sort key unspecified. -/
def sqlSelect (sel : BookRow → Bool) (ord : BookRow → BookRow → Prop)
    (db : DB) (limit : Nat) (out : List BookRow) : Prop :=
  ∃ full : List BookRow, full.Perm (db.books.filter sel) ∧
    List.Pairwise ord full ∧ out = full.take limit

/-- The observable behaviour of `db.search_books` (SQLite branch).  The
`books_fts` join is modelled as a filter of `books` (the insert/delete
triggers keep `books_fts` mirroring `books` for the operations modelled
here).  The `SELECT` projects (id, title, author, type, downloads); the model
keeps whole rows, which only adds information. -/
def search_books : FtsOutcome → DB → String → Nat → List BookRow → Prop
  | .ok m bm25, db, _query, limit, out => sqlSelect m (ftsOrd bm25) db limit out
  | .err qlow, db, _query, limit, out => sqlSelect (fallbackMatch qlow) dlOrd db limit out

/-- `isPrefixCh s t`: `s` is a prefix of `t` (plain character equality). -/
def isPrefixCh : List Char → List Char → Bool
  | [], _ => true
  | _ :: _, [] => false
  | a :: s, b :: t => a == b && isPrefixCh s t

/-- `isSub s t`: `s` occurs as a contiguous run inside `t`. -/
def isSub (s : List Char) : List Char → Bool
  | [] => isPrefixCh s []
  | c :: ts => isPrefixCh s (c :: ts) || isSub s ts

/-- The spec's claimed fallback behaviour, written from the spec's words:
case-insensitive substring matching of the query over title and author (case
folded in the ASCII range, where Python's and SQLite's lowerings agree — the
program's `lower(title)` folds no more than that). -/
def ciSubstrMatch (query : String) (b : BookRow) : Bool :=
  isSub (lowList query) (lowList b.title) || isSub (lowList query) (lowList b.author)

/-- The character list contains no `LIKE` metacharacter
(`%` is codepoint 37, `_` is codepoint 95). -/
def noWildcardL (s : List Char) : Prop := ∀ c ∈ s, c.toNat ≠ 37 ∧ c.toNat ≠ 95

instance (s : List Char) : Decidable (noWildcardL s) := by unfold noWildcardL; infer_instance

/-- The query string contains no `LIKE` metacharacter. -/
def noWildcard (q : String) : Prop := noWildcardL q.data

instance (q : String) : Decidable (noWildcard q) := by unfold noWildcard; infer_instance

/-- Every character is ASCII.  On such strings Python's `str.lower()` and
SQLite's `lower()` coincide (both are `asciiLower` pointwise), so the
Python-lowered query equals `lowList q`. -/
def isAscii (q : String) : Prop := ∀ c ∈ q.data, c.toNat ≤ 127

instance (q : String) : Decidable (isAscii q) := by unfold isAscii; infer_instance

/-- Prefix matching with `LIKE`'s character comparison (used to relate
`likeMatch` on wildcard-free patterns to plain substring containment). -/
def isPrefixLike : List Char → List Char → Bool
  | [], _ => true
  | _ :: _, [] => false
  | a :: s, b :: t => charLike a b && isPrefixLike s t

/-- Substring occurrence with `LIKE`'s character comparison. -/
def isSubLike (s : List Char) : List Char → Bool
  | [] => isPrefixLike s []
  | c :: ts => isPrefixLike s (c :: ts) || isSubLike s ts

/-! ## Aggregations (`list_missing_queries_agg`, `list_wishes_agg`) -/

/-- `COUNT(*)` of a `missing_queries` group (`GROUP BY query`: exact,
case-sensitive text equality). -/
def missingCount (db : DB) (t : String) : Nat :=
  (db.missing_queries.filter (fun r => r.query == t)).length

/-- `MAX(created_at)` of a `missing_queries` group. -/
def missingLast (db : DB) (t : String) : String :=
  strMaxList ((db.missing_queries.filter (fun r => r.query == t)).map (fun r => r.created_at))

/-- The group rows produced by `list_missing_queries_agg`'s `SELECT query,
COUNT(*) AS cnt, MAX(created_at) AS last_at ... GROUP BY query`, enumerated by
first occurrence; the `ORDER BY` is imposed separately. -/
def missingGroups (db : DB) : List (String × Nat × String) :=
  ((db.missing_queries.map (fun r => r.query)).dedup).map
    (fun t => (t, missingCount db t, missingLast db t))

/-- `ORDER BY cnt DESC, last_at DESC` on the aggregate rows. -/
def cntLastOrd (x y : String × Nat × String) : Prop :=
  y.2.1 < x.2.1 ∨ (x.2.1 = y.2.1 ∧ strLe y.2.2 x.2.2)

instance (x y : String × Nat × String) : Decidable (cntLastOrd x y) := by
  unfold cntLastOrd; infer_instance

/-- Results admitted by `db.list_missing_queries_agg(limit)`. -/
def list_missing_queries_agg (db : DB) (limit : Nat)
    (out : List (String × Nat × String)) : Prop :=
  ∃ full, full.Perm (missingGroups db) ∧ List.Pairwise cntLastOrd full ∧
    out = full.take limit

/-- The rows of `wishes` visible under the `only_unseen` flag
(`WHERE COALESCE(is_seen,0)=0`). -/
def wishRows (db : DB) (only_unseen : Bool) : List WishRow :=
  if only_unseen then db.wishes.filter (fun w => coalesce0 w.is_seen == 0) else db.wishes

/-- `COUNT(*)` of a `wishes` group (`GROUP BY text`). -/
def wishCount (db : DB) (u : Bool) (t : String) : Nat :=
  ((wishRows db u).filter (fun w => w.text == t)).length

/-- `MAX(created_at)` over a wish group — *not* computed by the SQL of
`list_wishes_agg`; defined only to state the spec's claimed recency
tie-break. -/
def wishLast (db : DB) (u : Bool) (t : String) : String :=
  strMaxList (((wishRows db u).filter (fun w => w.text == t)).map (fun w => w.created_at))

/-- The group rows of `list_wishes_agg`'s `SELECT text, COUNT(*) AS cnt ...
GROUP BY text`. -/
def wishGroups (db : DB) (u : Bool) : List (String × Nat) :=
  (((wishRows db u).map (fun w => w.text)).dedup).map (fun t => (t, wishCount db u t))

/-- `ORDER BY cnt DESC` — the only ordering `list_wishes_agg` requests. -/
def cntOrd (x y : String × Nat) : Prop := y.2 ≤ x.2

instance (x y : String × Nat) : Decidable (cntOrd x y) := by unfold cntOrd; infer_instance

/-- Results admitted by `db.list_wishes_agg(limit, offset, only_unseen)`:
grouped, ordered by count descending only, then `OFFSET` and `LIMIT`. -/
def list_wishes_agg (db : DB) (u : Bool) (limit offset : Nat)
    (out : List (String × Nat)) : Prop :=
  ∃ full, full.Perm (wishGroups db u) ∧ List.Pairwise cntOrd full ∧
    out = (full.drop offset).take limit

/-- The ordering the spec claims for `list_wishes_agg` output: count
descending, ties broken by the group's most recent timestamp descending. -/
def wishClaimOrd (db : DB) (u : Bool) (x y : String × Nat) : Prop :=
  y.2 < x.2 ∨ (x.2 = y.2 ∧ strLe (wishLast db u y.1) (wishLast db u x.1))

instance (db : DB) (u : Bool) (x y : String × Nat) : Decidable (wishClaimOrd db u x y) := by
  unfold wishClaimOrd; infer_instance

/-! ## Transaction model for `add_book_part` -/

/-- One sqlite3 connection: the committed store and the pending state of the
open implicit transaction.  Python's sqlite3 (default isolation level) begins
a transaction before the first DML statement; `conn.commit()` publishes it; a
connection that goes away with an open transaction rolls it back. -/
structure Conn where
  committed : DB
  pending : DB

/-- Open a connection / implicit transaction on the committed store. -/
def connBegin (db : DB) : Conn := ⟨db, db⟩

/-- Run one (individually atomic) SQL statement inside the transaction. -/
def connExec (f : DB → DB) (c : Conn) : Conn := { c with pending := f c.pending }

/-- `conn.commit()`. -/
def connCommit (c : Conn) : DB := c.pending

/-- Rollback of an open transaction (connection dropped before `commit`). -/
def connRollback (c : Conn) : DB := c.committed

/-- Where a call to `db.add_book_part` can fail: at the `INSERT`, at the
`UPDATE`, or at `conn.commit()` itself. -/
inductive FailPoint where
  | atInsert | atUpdate | atCommit
deriving Repr, DecidableEq

/-- A run of `db.add_book_part` under a failure oracle, returning the
committed store it leaves behind.  On any failure the exception propagates
before `conn.commit()`, so the open transaction is rolled back. -/
def add_book_part_run (db : DB) (bid : Int) (fid : String) (idx sz du : Int) :
    Option FailPoint → DB
  | some .atInsert => connRollback (connBegin db)
  | some .atUpdate =>
      connRollback (connExec (fun d => insertPartRow d bid fid idx sz du) (connBegin db))
  | some .atCommit =>
      connRollback (connExec (fun d => updateBookTotals d bid sz du)
        (connExec (fun d => insertPartRow d bid fid idx sz du) (connBegin db)))
  | none =>
      connCommit (connExec (fun d => updateBookTotals d bid sz du)
        (connExec (fun d => insertPartRow d bid fid idx sz du) (connBegin db)))


/-! ## Derived accessors, call iterators and concrete stores -/

/-- `SELECT ... FROM books WHERE id=?` followed by `fetchone()`. -/
def findBook (db : DB) (bid : Int) : Option BookRow :=
  db.books.find? (fun b => b.id == bid)

/-- `n` successive calls of `db.inc_download` on the same book. -/
def inc_download_n (db : DB) (bid : Int) : Nat → DB
  | 0 => db
  | n + 1 => inc_download (inc_download_n db bid n) bid

/-- The arguments of one `db.add_book_part` call (after the book id). -/
structure PartArgs where
  file_id : String
  part_index : Int
  size : Int
  duration_seconds : Int
deriving Repr, DecidableEq

/-- A sequence of `db.add_book_part` calls on one book. -/
def addParts (db : DB) (bid : Int) (calls : List PartArgs) : DB :=
  calls.foldl (fun d c => add_book_part d bid c.file_id c.part_index c.size c.duration_seconds) db

/-- Number of `saved_books` rows with the given key pair. -/
def savedKeyCount (db : DB) (uid bid : Int) : Nat :=
  (db.saved_books.filter (fun r => r.user_id == uid && r.book_id == bid)).length

/-- A one-book store used as concrete input for the search claims. -/
def cexBook : BookRow :=
  ⟨1, "abc", "xyz", none, "pdf", some 0, some 0, "2024-01-01", some 0, none⟩

def cexDB : DB := { emptyDB with books := [cexBook], next_book_id := 2 }

/-- A book whose title is Cyrillic uppercase (concrete input showing the
fallback's asymmetric case folding: Python lowers the query, SQLite's
`lower()` leaves the title). -/
def cyrBook : BookRow :=
  ⟨2, "АБВ", "xyz", none, "pdf", some 0, some 0, "2024-01-01", some 0, none⟩

/-- A store with one category referenced by one book that has one part and
one saved-book row (concrete input for the delete claims). -/
def bugDB : DB :=
  { emptyDB with
      categories := [⟨1, "cat"⟩]
      books := [⟨1, "t", "a", some 1, "audio", some 0, some 0, "2024-01-01", some 0, none⟩]
      book_parts := [⟨1, 1, "f", 1, 5, 7⟩]
      saved_books := [⟨9, 1, "2024-01-01"⟩]
      next_book_id := 2, next_part_id := 2 }

/-- Two unseen wishes with distinct texts, equal counts and different
timestamps (concrete input for the aggregation ordering claim). -/
def wishDB : DB :=
  { emptyDB with
      wishes := [⟨1, 10, "a", "2024-01-01", some 0⟩, ⟨2, 11, "b", "2024-01-02", some 0⟩]
      next_wish_id := 3 }

/-- Missing-query log with two differently-cased texts, one of them logged
twice (concrete input for the aggregation grouping claim). -/
def aggDB : DB :=
  { emptyDB with
      missing_queries :=
        [⟨1, 1, "Query", "2024-01-01"⟩, ⟨2, 2, "query", "2024-01-02"⟩,
         ⟨3, 3, "Query", "2024-01-03"⟩]
      next_missing_id := 4 }

/-- A store with one user (concrete input for the block-flag claim). -/
def userDB : DB :=
  { emptyDB with users := [⟨7, "u", "f", "2024-01-01", some 1⟩] }

/-- A store with one book whose `downloads` column is NULL (concrete input
for the download-counter claim). -/
def dlDB : DB :=
  { emptyDB with
      books := [⟨1, "t", "a", none, "pdf", some 0, some 0, "2024-01-01", none, none⟩]
      next_book_id := 2 }

/-! ## Helper lemmas -/

theorem lexLe_total : ∀ s t : List Char, lexLe s t = true ∨ lexLe t s = true := by
  intro s
  induction s with
  | nil => intro t; left; rfl
  | cons a s ih =>
    intro t
    cases t with
    | nil => right; rfl
    | cons b t =>
      by_cases hab : a = b
      · subst hab
        rcases ih t with h | h
        · left; simpa [lexLe] using h
        · right; simpa [lexLe] using h
      · rcases lt_trichotomy a b with h | h | h
        · left; simp [lexLe, hab, h]
        · exact absurd h hab
        · right; simp [lexLe, Ne.symm hab, h, not_lt_of_gt h]

theorem lexLe_trans : ∀ s t u : List Char,
    lexLe s t = true → lexLe t u = true → lexLe s u = true := by
  intro s
  induction s with
  | nil => intro t u _ _; rfl
  | cons a s ih =>
    intro t u h1 h2
    cases t with
    | nil => simp [lexLe] at h1
    | cons b t =>
      cases u with
      | nil => simp [lexLe] at h2
      | cons c u =>
        by_cases hab : a = b <;> by_cases hbc : b = c
        · subst hab; subst hbc
          simp only [lexLe, if_pos rfl] at h1 h2 ⊢
          exact ih t u h1 h2
        · subst hab
          simp only [lexLe, if_pos rfl] at h1
          simpa [lexLe, hbc] using h2
        · subst hbc
          simpa [lexLe, hab] using h1
        · simp only [lexLe, if_neg hab, decide_eq_true_eq] at h1
          simp only [lexLe, if_neg hbc, decide_eq_true_eq] at h2
          have hac : a < c := lt_trans h1 h2
          simp [lexLe, ne_of_lt hac, hac]

theorem strLe_total (a b : String) : strLe a b ∨ strLe b a := lexLe_total a.data b.data

theorem strLe_trans {a b c : String} (h1 : strLe a b) (h2 : strLe b c) : strLe a c :=
  lexLe_trans a.data b.data c.data h1 h2

/-- `find?` commutes with a row update that does not change whether the
predicate holds. -/
theorem find?_map_pres {α : Type} (l : List α) (p : α → Bool) (g : α → α)
    (hg : ∀ x, p (g x) = p x) : (l.map g).find? p = (l.find? p).map g := by
  rw [List.find?_map]
  have : (p ∘ g) = p := funext fun x => hg x
  rw [this]

theorem findBook_mapBooks (db : DB) (bid : Int) (g : BookRow → BookRow)
    (hg : ∀ b, (g b).id = b.id) :
    findBook { db with books := db.books.map g } bid = (findBook db bid).map g := by
  unfold findBook
  exact find?_map_pres db.books (fun b => b.id == bid) g (fun b => by simp [hg])

/-! ## C2: atomicity of `add_book_part` -/

/-- C2.  `add_book_part` performs the part insert and the aggregate update in
one transaction: a run that fails at any point (at the `INSERT`, at the
`UPDATE`, or at `conn.commit()`) leaves the committed store unchanged, and a
successful run commits exactly both changes — the part row appended and the
parent book's `total_size` / `duration_seconds` incremented by the same
`size` / `duration` arguments.  (Python's sqlite3 opens an implicit
transaction before the `INSERT`; nothing is published before `conn.commit()`;
an abandoned connection rolls the transaction back.) -/
theorem add_book_part_atomic (db : DB) (bid : Int) (fid : String) (idx sz du : Int) :
    (∀ fp : FailPoint, add_book_part_run db bid fid idx sz du (some fp) = db) ∧
    add_book_part_run db bid fid idx sz du none = add_book_part db bid fid idx sz du ∧
    (add_book_part db bid fid idx sz du).book_parts
        = db.book_parts ++ [⟨db.next_part_id, bid, fid, idx, sz, du⟩] ∧
    (add_book_part db bid fid idx sz du).books = db.books.map (fun b =>
      if b.id == bid then
        { b with total_size := some (coalesce0 b.total_size + sz)
                 duration_seconds := some (coalesce0 b.duration_seconds + du) }
      else b) := by
  refine ⟨fun fp => ?_, rfl, rfl, rfl⟩
  cases fp <;> rfl

/-- Witness for C2 at a concrete store: a failing run commits nothing, a
successful run commits the combined update. -/
theorem add_book_part_atomic_witness :
    add_book_part_run cexDB 1 "f" 1 5 7 (some FailPoint.atUpdate) = cexDB ∧
    add_book_part_run cexDB 1 "f" 1 5 7 none = add_book_part cexDB 1 "f" 1 5 7 :=
  ⟨(add_book_part_atomic cexDB 1 "f" 1 5 7).1 FailPoint.atUpdate,
   (add_book_part_atomic cexDB 1 "f" 1 5 7).2.1⟩

/-! ## C5: foreign-key actions on delete (code bug) -/

/-- C5 (code bug).  The spec and the schema's own `ON DELETE SET NULL` /
`ON DELETE CASCADE` clauses promise that `delete_category` nulls referencing
books' `category_id` and `delete_book` cascades to `book_parts` and
`saved_books`.  The code breaks this on the default SQLite backend: SQLite's
`PRAGMA foreign_keys = ON` is per-connection, and only `init_db`'s own
connection ever executes it, so the connections opened by `delete_category` /
`delete_book` run with foreign keys off.  Concretely, on `bugDB`: deleting
category 1 leaves book 1 still pointing at the now-deleted category, and
deleting book 1 leaves its part row and saved-book row in place. -/
theorem delete_fk_actions_not_applied :
    (delete_category bugDB 1).categories = [] ∧
    (delete_category bugDB 1).books.map (fun b => b.category_id) = [some 1] ∧
    (delete_book bugDB 1).books = [] ∧
    (delete_book bugDB 1).book_parts = [⟨1, 1, "f", 1, 5, 7⟩] ∧
    (delete_book bugDB 1).saved_books = [⟨9, 1, "2024-01-01"⟩] := by
  refine ⟨?_, ?_, ?_, ?_, ?_⟩ <;> decide

/-! ## C6: `inc_download` adds exactly one per call -/

/-- C6.  Each `inc_download` call on an existing book increments that book's
`downloads` counter by one via the single statement
`UPDATE books SET downloads = COALESCE(downloads,0) + 1 WHERE id=?` (a NULL
counter counts as zero), so `n` calls leave the counter exactly `n` higher
than before; `Int` puts no upper bound on the counter. -/
theorem inc_download_adds_n (db : DB) (bid : Int) (b : BookRow) (n : Nat)
    (hb : findBook db bid = some b) :
    (findBook (inc_download_n db bid n) bid).map (fun r => coalesce0 r.downloads)
      = some (coalesce0 b.downloads + n) := by
  induction n with
  | zero => simp [inc_download_n, hb]
  | succ n ih =>
    rcases Option.map_eq_some'.mp ih with ⟨r, hr, hval⟩
    have hstep : findBook (inc_download_n db bid (n + 1)) bid
        = (findBook (inc_download_n db bid n) bid).map (fun b =>
            if b.id == bid then { b with downloads := some (coalesce0 b.downloads + 1) } else b) := by
      show findBook (inc_download (inc_download_n db bid n) bid) bid = _
      exact findBook_mapBooks _ bid _ (fun b => by split <;> rfl)
    have hr2 : List.find? (fun b => b.id == bid) (inc_download_n db bid n).books = some r := hr
    have hrp0 := List.find?_some hr2
    have hrp : (r.id == bid) = true := by simpa using hrp0
    rw [hstep, hr, Option.map_some', Option.map_some', if_pos hrp]
    have hproj : ({ r with downloads := some (coalesce0 r.downloads + 1)} : BookRow).downloads
        = some (coalesce0 r.downloads + 1) := rfl
    rw [hproj]
    have hco : coalesce0 (some (coalesce0 r.downloads + 1)) = coalesce0 r.downloads + 1 := rfl
    rw [hco, hval]
    congr 1
    push_cast
    ring

/-- Witness for C6 at a concrete input: a book whose `downloads` column is
NULL reads back as 3 after three calls. -/
theorem inc_download_adds_n_witness :
    (findBook (inc_download_n dlDB 1 3) 1).map (fun r => coalesce0 r.downloads)
      = some (coalesce0 (none : Option Int) + 3) :=
  inc_download_adds_n dlDB 1
    ⟨1, "t", "a", none, "pdf", some 0, some 0, "2024-01-01", none, none⟩ 3 rfl

/-! ## C10: `is_blocked` on absent users -/

/-- C10.  For a `user_id` with no row in `users`, `is_blocked` returns
`False` (no exception, no null); for an existing row it returns `True`
exactly when the stored `is_blocked` field is a nonzero integer (a NULL
field, not being nonzero, reads as `False` via Python's `bool(None)`). -/
theorem is_blocked_spec (db : DB) (uid : Int) :
    (findUser db uid = none → is_blocked db uid = false) ∧
    (∀ u, findUser db uid = some u →
      (is_blocked db uid = true ↔ ∃ n, u.is_blocked = some n ∧ n ≠ 0)) := by
  constructor
  · intro h; simp [is_blocked, h]
  · intro u hu
    simp only [is_blocked, hu]
    cases h : u.is_blocked with
    | none => simp [pyBool, h]
    | some m =>
      simp [pyBool, h]

/-- Witness for C10: an absent user reads unblocked; a user stored with
`is_blocked = 1` reads blocked. -/
theorem is_blocked_spec_witness :
    is_blocked userDB 99 = false ∧ is_blocked userDB 7 = true :=
  ⟨(is_blocked_spec userDB 99).1 rfl,
   ((is_blocked_spec userDB 7).2 ⟨7, "u", "f", "2024-01-01", some 1⟩ rfl).mpr
     ⟨1, rfl, by decide⟩⟩

/-! ## C7: `upsert_user` -/

theorem upsert_user_found (db : DB) (uid : Int) (un fn now : String)
    (h : db.users.any (fun u => u.user_id == uid) = true) :
    upsert_user db uid un fn now = { db with users := db.users.map (fun u =>
        if u.user_id == uid then { u with username := un, first_name := fn } else u) } := by
  unfold upsert_user
  rw [if_pos h]

theorem upsert_user_fresh (db : DB) (uid : Int) (un fn now : String)
    (h : db.users.any (fun u => u.user_id == uid) = false) :
    upsert_user db uid un fn now
        = { db with users := db.users ++ [⟨uid, un, fn, now, some 0⟩] } := by
  unfold upsert_user
  rw [if_neg (by simp [h])]

theorem upsert_update_idem (un fn : String) (uid : Int) (v : UserRow) :
    (fun u : UserRow =>
        if u.user_id == uid then { u with username := un, first_name := fn } else u)
      ((fun u : UserRow =>
        if u.user_id == uid then { u with username := un, first_name := fn } else u) v)
    = (fun u : UserRow =>
        if u.user_id == uid then { u with username := un, first_name := fn } else u) v := by
  by_cases h : (v.user_id == uid) = true <;> simp [h]

/-- C7.  `upsert_user` inserts a fresh row with `joined_at = now` (and
`is_blocked` at its default 0) when the user is absent; for an existing user
it rewrites only `username` and `first_name` — every row's `user_id`,
`joined_at` and `is_blocked` are untouched; and a repeated call with the same
arguments is the identity, so the model (a total function) also never errors
on repeats. -/
theorem upsert_user_spec (db : DB) (uid : Int) (un fn now now2 : String) :
    (findUser db uid = none →
        (upsert_user db uid un fn now).users = db.users ++ [⟨uid, un, fn, now, some 0⟩]) ∧
    (∀ u, findUser db uid = some u →
        (upsert_user db uid un fn now).users.map (fun v => (v.user_id, v.joined_at, v.is_blocked))
            = db.users.map (fun v => (v.user_id, v.joined_at, v.is_blocked)) ∧
        findUser (upsert_user db uid un fn now) uid
            = some { u with username := un, first_name := fn }) ∧
    upsert_user (upsert_user db uid un fn now) uid un fn now2 = upsert_user db uid un fn now := by
  refine ⟨?_, ?_, ?_⟩
  · intro h
    have hany : db.users.any (fun u => u.user_id == uid) = false := by
      rw [List.any_eq_false]
      intro x hx
      have hx2 : List.find? (fun u => u.user_id == uid) db.users = none := h
      exact List.find?_eq_none.mp hx2 x hx
    rw [upsert_user_fresh db uid un fn now hany]
  · intro u hu
    have hu2 : List.find? (fun u => u.user_id == uid) db.users = some u := hu
    have hmem : u ∈ db.users := List.mem_of_find?_eq_some hu2
    have hpu : (u.user_id == uid) = true := by simpa using List.find?_some hu2
    have hany : db.users.any (fun u => u.user_id == uid) = true :=
      List.any_eq_true.mpr ⟨u, hmem, hpu⟩
    rw [upsert_user_found db uid un fn now hany]
    constructor
    · dsimp only
      rw [List.map_map]
      refine List.map_congr_left (fun v _ => ?_)
      by_cases h : (v.user_id == uid) = true
      · simp [Function.comp, h]
      · simp [Function.comp, h]
    · show ((db.users.map (fun u =>
          if u.user_id == uid then { u with username := un, first_name := fn } else u)).find?
            (fun u => u.user_id == uid)) = _
      rw [find?_map_pres _ _ _ (fun v => by split <;> rfl), hu2]
      simp only [Option.map_some']
      rw [if_pos hpu]
  · by_cases hany : db.users.any (fun u => u.user_id == uid) = true
    · have hany2 : (upsert_user db uid un fn now).users.any (fun u => u.user_id == uid) = true := by
        rw [upsert_user_found db uid un fn now hany]
        dsimp only
        rw [List.any_map]
        have hcmp : ((fun u : UserRow => u.user_id == uid) ∘ (fun u : UserRow =>
            if u.user_id == uid then { u with username := un, first_name := fn } else u))
            = (fun u : UserRow => u.user_id == uid) :=
          funext fun v => by simp only [Function.comp]; split <;> rfl
        rw [hcmp, hany]
      rw [upsert_user_found _ uid un fn now2 hany2,
          upsert_user_found db uid un fn now hany]
      dsimp only
      rw [List.map_map]
      have hcc : ((fun u : UserRow =>
          if u.user_id == uid then { u with username := un, first_name := fn } else u) ∘
            (fun u : UserRow =>
          if u.user_id == uid then { u with username := un, first_name := fn } else u))
          = (fun u : UserRow =>
          if u.user_id == uid then { u with username := un, first_name := fn } else u) :=
        funext fun v => upsert_update_idem un fn uid v
      rw [hcc]
    · have hanyf : db.users.any (fun u => u.user_id == uid) = false := by
        simpa using hany
      have hany2 : (upsert_user db uid un fn now).users.any (fun u => u.user_id == uid) = true := by
        rw [upsert_user_fresh db uid un fn now hanyf]
        dsimp only
        rw [List.any_append]
        simp
      rw [upsert_user_fresh db uid un fn now hanyf] at hany2 ⊢
      rw [upsert_user_found _ uid un fn now2 hany2]
      dsimp only
      rw [List.map_append]
      have hold : db.users.map (fun u =>
          if u.user_id == uid then { u with username := un, first_name := fn } else u)
            = db.users := by
        have hall := List.any_eq_false.mp hanyf
        conv_rhs => rw [← List.map_id db.users]
        refine List.map_congr_left (fun v hv => ?_)
        rw [if_neg (hall v hv)]
        rfl
      have hnew : ([(⟨uid, un, fn, now, some 0⟩ : UserRow)]).map (fun u =>
          if u.user_id == uid then { u with username := un, first_name := fn } else u)
          = [⟨uid, un, fn, now, some 0⟩] := by
        simp
      rw [hold, hnew]

/-- Witness for C7 at concrete inputs: inserting a fresh user then repeating
the call with the same name arguments changes nothing. -/
theorem upsert_user_spec_witness :
    (upsert_user emptyDB 5 "nick" "Nick" "2024-01-01").users
        = [⟨5, "nick", "Nick", "2024-01-01", some 0⟩] ∧
    upsert_user (upsert_user emptyDB 5 "nick" "Nick" "2024-01-01") 5 "nick" "Nick" "2024-02-02"
        = upsert_user emptyDB 5 "nick" "Nick" "2024-01-01" := by
  refine ⟨?_, (upsert_user_spec emptyDB 5 "nick" "Nick" "2024-01-01" "2024-02-02").2.2⟩
  have h := (upsert_user_spec emptyDB 5 "nick" "Nick" "2024-01-01" "2024-02-02").1 rfl
  simpa [emptyDB] using h

/-! ## C8: `add_saved_book` idempotence -/

theorem add_saved_book_found (db : DB) (uid bid : Int) (t : String)
    (h : db.saved_books.any (fun r => r.user_id == uid && r.book_id == bid) = true) :
    add_saved_book db uid bid t = db := by
  unfold add_saved_book
  rw [if_pos h]

theorem add_saved_book_fresh (db : DB) (uid bid : Int) (t : String)
    (h : db.saved_books.any (fun r => r.user_id == uid && r.book_id == bid) = false) :
    add_saved_book db uid bid t
      = { db with saved_books := db.saved_books ++ [⟨uid, bid, t⟩] } := by
  unfold add_saved_book
  rw [if_neg (by simp [h])]

/-- C8.  Starting from a store whose `saved_books` respects the
`(user_id, book_id)` PRIMARY KEY (at most one row for the pair), saving a
book and then saving it again never raises (`INSERT OR IGNORE`), leaves
exactly one row for the pair, and the duplicate call leaves the store — in
particular the first row's `created_at` — entirely unchanged. -/
theorem add_saved_book_idempotent (db : DB) (uid bid : Int) (t1 t2 : String)
    (h : savedKeyCount db uid bid ≤ 1) :
    add_saved_book (add_saved_book db uid bid t1) uid bid t2 = add_saved_book db uid bid t1 ∧
    savedKeyCount (add_saved_book db uid bid t1) uid bid = 1 := by
  by_cases hany : db.saved_books.any (fun r => r.user_id == uid && r.book_id == bid) = true
  · have hform : add_saved_book db uid bid t1 = db := add_saved_book_found db uid bid t1 hany
    have hcount : savedKeyCount db uid bid = 1 := by
      obtain ⟨r, hmem, hp⟩ := List.any_eq_true.mp hany
      have hrf : r ∈ db.saved_books.filter (fun r => r.user_id == uid && r.book_id == bid) :=
        List.mem_filter.mpr ⟨hmem, hp⟩
      have hpos : 0 < savedKeyCount db uid bid := by
        unfold savedKeyCount
        exact List.length_pos.mpr (fun he => by rw [he] at hrf; exact (List.not_mem_nil r) hrf)
      omega
    rw [hform]
    exact ⟨add_saved_book_found db uid bid t2 hany, hcount⟩
  · have hanyf : db.saved_books.any (fun r => r.user_id == uid && r.book_id == bid) = false := by
      simpa using hany
    have hform : add_saved_book db uid bid t1
        = { db with saved_books := db.saved_books ++ [⟨uid, bid, t1⟩] } :=
      add_saved_book_fresh db uid bid t1 hanyf
    have hzero : db.saved_books.filter (fun r => r.user_id == uid && r.book_id == bid) = [] :=
      List.filter_eq_nil_iff.mpr (List.any_eq_false.mp hanyf)
    have hcount : savedKeyCount (add_saved_book db uid bid t1) uid bid = 1 := by
      rw [hform]
      unfold savedKeyCount
      dsimp only
      rw [List.filter_append, hzero]
      simp
    have hany2 : (add_saved_book db uid bid t1).saved_books.any
        (fun r => r.user_id == uid && r.book_id == bid) = true := by
      rw [hform]
      dsimp only
      rw [List.any_append]
      simp
    exact ⟨add_saved_book_found _ uid bid t2 hany2, hcount⟩

/-- Witness for C8: on the empty store, a duplicate save is the identity and
exactly one row remains. -/
theorem add_saved_book_idempotent_witness :
    add_saved_book (add_saved_book emptyDB 1 2 "2024-01-01") 1 2 "2024-02-02"
        = add_saved_book emptyDB 1 2 "2024-01-01" ∧
    savedKeyCount (add_saved_book emptyDB 1 2 "2024-01-01") 1 2 = 1 :=
  add_saved_book_idempotent emptyDB 1 2 "2024-01-01" "2024-02-02" (by decide)

/-! ## C1: running totals equal the sums of the inserted parts -/

theorem addParts_totals (calls : List PartArgs) : ∀ (db : DB) (bid : Int) (b : BookRow)
    (s d : Int), findBook db bid = some b → b.total_size = some s →
    b.duration_seconds = some d →
    ∃ b2, findBook (addParts db bid calls) bid = some b2 ∧
      b2.total_size = some (s + (calls.map PartArgs.size).sum) ∧
      b2.duration_seconds = some (d + (calls.map PartArgs.duration_seconds).sum) := by
  induction calls with
  | nil =>
    intro db bid b s d hb hs hd
    exact ⟨b, hb, by simp [hs], by simp [hd]⟩
  | cons c cs ih =>
    intro db bid b s d hb hs hd
    have hpb : (b.id == bid) = true := by
      have hb2 : List.find? (fun r => r.id == bid) db.books = some b := hb
      simpa using List.find?_some hb2
    have hins : findBook (insertPartRow db bid c.file_id c.part_index c.size c.duration_seconds)
        bid = some b := hb
    have hstep : findBook (add_book_part db bid c.file_id c.part_index c.size c.duration_seconds)
        bid = some { b with total_size := some (coalesce0 b.total_size + c.size)
                            duration_seconds := some (coalesce0 b.duration_seconds + c.duration_seconds) } := by
      show findBook { (insertPartRow db bid c.file_id c.part_index c.size c.duration_seconds) with
          books := (insertPartRow db bid c.file_id c.part_index c.size c.duration_seconds).books.map
            (fun r => if r.id == bid then
              { r with total_size := some (coalesce0 r.total_size + c.size)
                       duration_seconds := some (coalesce0 r.duration_seconds + c.duration_seconds) }
             else r) } bid = _
      rw [findBook_mapBooks _ bid _ (fun r => by split <;> rfl), hins]
      simp only [Option.map_some']
      rw [if_pos hpb]
    obtain ⟨b2, h2, hs3, hd3⟩ := ih _ bid _ (s + c.size) (d + c.duration_seconds) hstep
      (by show some (coalesce0 b.total_size + c.size) = some (s + c.size); rw [hs]; rfl)
      (by show some (coalesce0 b.duration_seconds + c.duration_seconds)
            = some (d + c.duration_seconds); rw [hd]; rfl)
    refine ⟨b2, h2, ?_, ?_⟩
    · rw [hs3]
      congr 1
      simp only [List.map_cons, List.sum_cons]
      ring
    · rw [hd3]
      congr 1
      simp only [List.map_cons, List.sum_cons]
      ring

/-- C1.  On a store whose book ids are all below the AUTOINCREMENT counter
(true of every store reachable from `init_db`), create a fresh book and run
any sequence of `add_book_part` calls on it: the book row's `total_size` is
exactly the sum of the inserted sizes, and its `duration_seconds` exactly the
sum of the inserted durations. -/
theorem add_book_part_totals_invariant (db : DB)
    (hwf : ∀ b ∈ db.books, b.id < db.next_book_id)
    (title author : String) (cat : Option Int) (ty now : String) (calls : List PartArgs) :
    ∃ b, findBook (addParts (create_book db title author cat ty now).1
          (create_book db title author cat ty now).2 calls)
          (create_book db title author cat ty now).2 = some b ∧
      b.total_size = some (calls.map PartArgs.size).sum ∧
      b.duration_seconds = some (calls.map PartArgs.duration_seconds).sum := by
  have hnone : db.books.find? (fun b => b.id == db.next_book_id) = none := by
    rw [List.find?_eq_none]
    intro b hb
    have := hwf b hb
    simp only [beq_iff_eq]
    omega
  have hfind : findBook (create_book db title author cat ty now).1 db.next_book_id
      = some ⟨db.next_book_id, title, author, cat, ty, some 0, some 0, now, some 0, none⟩ := by
    show (db.books ++ [(⟨db.next_book_id, title, author, cat, ty, some 0, some 0, now,
        some 0, none⟩ : BookRow)]).find? (fun b => b.id == db.next_book_id) = _
    rw [List.find?_append, hnone]
    simp
  obtain ⟨b2, h2, hs, hd⟩ := addParts_totals calls _ db.next_book_id _ 0 0 hfind rfl rfl
  exact ⟨b2, h2, by simpa using hs, by simpa using hd⟩

/-- Witness for C1: a fresh book on the empty store receiving two parts of
sizes 5 and 3 (durations 7 and 4) reads back totals 8 and 11. -/
theorem add_book_part_totals_invariant_witness :
    ∃ b, findBook (addParts (create_book emptyDB "t" "a" none "audio" "2024-01-01").1
          (create_book emptyDB "t" "a" none "audio" "2024-01-01").2
          [⟨"f1", 1, 5, 7⟩, ⟨"f2", 2, 3, 4⟩])
          (create_book emptyDB "t" "a" none "audio" "2024-01-01").2 = some b ∧
      b.total_size = some (([⟨"f1", 1, 5, 7⟩, (⟨"f2", 2, 3, 4⟩ : PartArgs)]).map PartArgs.size).sum ∧
      b.duration_seconds
        = some (([⟨"f1", 1, 5, 7⟩, (⟨"f2", 2, 3, 4⟩ : PartArgs)]).map PartArgs.duration_seconds).sum :=
  add_book_part_totals_invariant emptyDB (by intro b hb; simp [emptyDB] at hb)
    "t" "a" none "audio" "2024-01-01" [⟨"f1", 1, 5, 7⟩, ⟨"f2", 2, 3, 4⟩]

/-! ## C9: aggregation grouping and ordering -/

/-- C9 amended.  Both aggregators group by exact, case-sensitive text
equality and count per group; every admitted output of
`list_missing_queries_agg` is ordered by count descending with ties broken by
`MAX(created_at)` descending, while `list_wishes_agg` orders by count
descending only (its SQL has no recency tie-break); groups are never merged
or repeated, and at most `limit` rows are returned. -/
theorem agg_grouping_order :
    (∀ (db : DB) (limit : Nat) (out : List (String × Nat × String)),
      list_missing_queries_agg db limit out →
        List.Pairwise cntLastOrd out ∧
        (∀ e ∈ out, e.2.1 = missingCount db e.1 ∧ e.2.2 = missingLast db e.1) ∧
        (out.map Prod.fst).Nodup ∧ out.length ≤ limit) ∧
    (∀ (db : DB) (u : Bool) (limit offset : Nat) (out : List (String × Nat)),
      list_wishes_agg db u limit offset out →
        List.Pairwise cntOrd out ∧
        (∀ e ∈ out, e.2 = wishCount db u e.1) ∧
        (out.map Prod.fst).Nodup ∧ out.length ≤ limit) := by
  constructor
  · rintro db limit out ⟨full, hperm, hsort, rfl⟩
    refine ⟨hsort.sublist (List.take_sublist _ _), ?_, ?_, List.length_take_le _ _⟩
    · intro e he
      have hef : e ∈ missingGroups db :=
        hperm.mem_iff.mp ((List.take_sublist _ _).subset he)
      rcases List.mem_map.mp hef with ⟨t, _, rfl⟩
      exact ⟨rfl, rfl⟩
    · have h1 : (missingGroups db).map Prod.fst
          = (db.missing_queries.map (fun r => r.query)).dedup := by
        unfold missingGroups
        rw [List.map_map]
        have hc : (Prod.fst ∘ fun t => (t, missingCount db t, missingLast db t))
            = (id : String → String) := rfl
        rw [hc, List.map_id]
      have h2 : (full.map Prod.fst).Nodup := by
        rw [(hperm.map Prod.fst).nodup_iff, h1]
        exact List.nodup_dedup _
      exact h2.sublist ((List.take_sublist _ _).map Prod.fst)
  · rintro db u limit offset out ⟨full, hperm, hsort, rfl⟩
    have hsub : List.Sublist ((full.drop offset).take limit) full :=
      (((full.drop offset)).take_sublist limit).trans (full.drop_sublist offset)
    refine ⟨hsort.sublist hsub, ?_, ?_, List.length_take_le _ _⟩
    · intro e he
      have hef : e ∈ wishGroups db u := hperm.mem_iff.mp (hsub.subset he)
      rcases List.mem_map.mp hef with ⟨t, _, rfl⟩
      rfl
    · have h1 : (wishGroups db u).map Prod.fst
          = ((wishRows db u).map (fun w => w.text)).dedup := by
        unfold wishGroups
        rw [List.map_map]
        have hc : (Prod.fst ∘ fun t => (t, wishCount db u t)) = (id : String → String) := rfl
        rw [hc, List.map_id]
      have h2 : (full.map Prod.fst).Nodup := by
        rw [(hperm.map Prod.fst).nodup_iff, h1]
        exact List.nodup_dedup _
      exact h2.sublist (hsub.map Prod.fst)

/-- Witness for C9 (amended theorem) at a concrete store: `"Query"` (logged
twice) and `"query"` (logged once) form two separate groups — exact,
case-sensitive grouping — ordered by count then recency. -/
theorem agg_grouping_order_witness :
    List.Pairwise cntLastOrd [("Query", 2, "2024-01-03"), ("query", 1, "2024-01-02")] ∧
    (∀ e ∈ [("Query", 2, "2024-01-03"), ("query", 1, "2024-01-02")],
      e.2.1 = missingCount aggDB e.1 ∧ e.2.2 = missingLast aggDB e.1) ∧
    (([("Query", 2, "2024-01-03"), ("query", 1, "2024-01-02")]).map Prod.fst).Nodup ∧
    ([("Query", 2, "2024-01-03"), ("query", 1, "2024-01-02")]
      : List (String × Nat × String)).length ≤ 50 :=
  agg_grouping_order.1 aggDB 50 [("Query", 2, "2024-01-03"), ("query", 1, "2024-01-02")]
    ⟨[("Query", 2, "2024-01-03"), ("query", 1, "2024-01-02")],
      by rw [show missingGroups aggDB
            = [("query", 1, "2024-01-02"), ("Query", 2, "2024-01-03")] from by decide]
         exact List.Perm.swap _ _ _,
      by decide, rfl⟩

/-- C9 counterexample.  `list_wishes_agg`'s SQL orders by `cnt DESC` only, so
on two equal-count groups it may return the *older* text first: the output
`[("a",1), ("b",1)]` is admitted by the code on `wishDB` (where `"b"` is the
more recent wish) but violates the claimed most-recent-descending tie-break. -/
theorem wishes_agg_no_recency_tiebreak :
    list_wishes_agg wishDB true 50 0 [("a", 1), ("b", 1)] ∧
    ¬ List.Pairwise (wishClaimOrd wishDB true) [("a", 1), ("b", 1)] := by
  constructor
  · refine ⟨[("a", 1), ("b", 1)], ?_, by decide, rfl⟩
    rw [show wishGroups wishDB true = [("a", 1), ("b", 1)] from by decide]
  · decide


/-! ## C3: `search_books` ranking on the full-text path -/

theorem dlOrd_total (x y : BookRow) : dlOrd x y ∨ dlOrd y x := by
  unfold dlOrd
  rcases lt_trichotomy (coalesce0 x.downloads) (coalesce0 y.downloads) with h | h | h
  · right; left; exact h
  · rcases strLe_total x.created_at y.created_at with hs | hs
    · right; right; exact ⟨h.symm, hs⟩
    · left; right; exact ⟨h, hs⟩
  · left; left; exact h

theorem dlOrd_trans {x y z : BookRow} (h1 : dlOrd x y) (h2 : dlOrd y z) : dlOrd x z := by
  unfold dlOrd at h1 h2 ⊢
  rcases h1 with h1 | ⟨e1, s1⟩
  · rcases h2 with h2 | ⟨e2, s2⟩
    · left; omega
    · left; omega
  · rcases h2 with h2 | ⟨e2, s2⟩
    · left; omega
    · right; exact ⟨by omega, strLe_trans s2 s1⟩

theorem ftsOrd_total (f : BookRow → Int) (x y : BookRow) : ftsOrd f x y ∨ ftsOrd f y x := by
  unfold ftsOrd
  rcases lt_trichotomy (f x) (f y) with h | h | h
  · left; left; exact h
  · rcases dlOrd_total x y with hd | hd
    · left; right; exact ⟨h, hd⟩
    · right; right; exact ⟨h.symm, hd⟩
  · right; left; exact h

theorem ftsOrd_trans (f : BookRow → Int) {x y z : BookRow}
    (h1 : ftsOrd f x y) (h2 : ftsOrd f y z) : ftsOrd f x z := by
  unfold ftsOrd at h1 h2 ⊢
  rcases h1 with h1 | ⟨e1, s1⟩
  · rcases h2 with h2 | ⟨e2, s2⟩
    · left; omega
    · left; omega
  · rcases h2 with h2 | ⟨e2, s2⟩
    · left; omega
    · right; exact ⟨by omega, dlOrd_trans s1 s2⟩

/-- C3.  On the full-text path (`MATCH` succeeds; `m` is the engine's match
predicate for the query, `bm25` its score, with relevance rank running
opposite to the score — FTS5's `bm25` gives better matches lower values),
every result list `search_books` can return consists of matching books only,
is ordered by relevance rank descending with ties broken by download count
descending and then creation time descending, and has at most `limit` rows —
all matching books appear when they fit within `limit`. -/
theorem search_books_ranked_order (q : String) (m : BookRow → Bool) (bm25 rank : BookRow → Int)
    (hrank : ∀ b, rank b = - bm25 b) (db : DB) (limit : Nat) (out : List BookRow)
    (h : search_books (FtsOutcome.ok m bm25) db q limit out) :
    List.Pairwise (rankOrd rank) out ∧ out.length ≤ limit ∧
    (∀ b ∈ out, b ∈ db.books ∧ m b = true) ∧
    ((db.books.filter m).length ≤ limit → ∀ b ∈ db.books.filter m, b ∈ out) := by
  obtain ⟨full, hperm, hsort, rfl⟩ := h
  refine ⟨?_, List.length_take_le _ _, ?_, ?_⟩
  · refine (hsort.sublist (List.take_sublist _ _)).imp ?_
    intro a b hab
    unfold ftsOrd at hab
    unfold rankOrd
    rcases hab with hlt | ⟨he, hd⟩
    · left
      rw [hrank a, hrank b]
      omega
    · right
      exact ⟨by rw [hrank a, hrank b, he], hd⟩
  · intro b hb
    have hbf : b ∈ full := (List.take_sublist _ _).subset hb
    exact List.mem_filter.mp (hperm.mem_iff.mp hbf)
  · intro hlen b hbf
    have hfl : full.length = (db.books.filter m).length := hperm.length_eq
    rw [List.take_of_length_le (by omega)]
    exact hperm.mem_iff.mpr hbf

/-- Witness for C3 at a concrete input (empty store, any admissible output is
the empty list). -/
theorem search_books_ranked_order_witness :
    List.Pairwise (rankOrd (fun _ => (0 : Int))) ([] : List BookRow) ∧
    ([] : List BookRow).length ≤ 5 ∧
    (∀ b ∈ ([] : List BookRow), b ∈ emptyDB.books ∧ (fun _ : BookRow => true) b = true) ∧
    ((emptyDB.books.filter (fun _ => true)).length ≤ 5 →
      ∀ b ∈ emptyDB.books.filter (fun _ => true), b ∈ ([] : List BookRow)) :=
  search_books_ranked_order "x" (fun _ => true) (fun _ => 0) (fun _ => 0)
    (fun b => by simp) emptyDB 5 []
    ⟨[], List.Perm.nil, List.Pairwise.nil, rfl⟩


/-! ## C4: totality of `search_books` and the LIKE fallback -/

theorem toNat_ofNat_small (n : Nat) (h1 : 97 ≤ n) (h2 : n ≤ 122) : (Char.ofNat n).toNat = n := by
  interval_cases n <;> decide

theorem asciiLower_toNat (c : Char) : (asciiLower c).toNat
    = if 65 ≤ c.toNat ∧ c.toNat ≤ 90 then c.toNat + 32 else c.toNat := by
  unfold asciiLower
  split
  · next h => exact toNat_ofNat_small _ (by omega) (by omega)
  · rfl

theorem asciiLower_idem (c : Char) : asciiLower (asciiLower c) = asciiLower c := by
  by_cases h : 65 ≤ c.toNat ∧ c.toNat ≤ 90
  · have ht : (asciiLower c).toNat = c.toNat + 32 := by rw [asciiLower_toNat, if_pos h]
    show (if 65 ≤ (asciiLower c).toNat ∧ (asciiLower c).toNat ≤ 90
        then Char.ofNat ((asciiLower c).toNat + 32) else asciiLower c) = asciiLower c
    rw [if_neg (by omega)]
  · have ht : (asciiLower c).toNat = c.toNat := by rw [asciiLower_toNat, if_neg h]
    show (if 65 ≤ (asciiLower c).toNat ∧ (asciiLower c).toNat ≤ 90
        then Char.ofNat ((asciiLower c).toNat + 32) else asciiLower c) = asciiLower c
    rw [if_neg (by omega)]

theorem charLike_low (a b : Char) :
    charLike (asciiLower a) (asciiLower b) = (asciiLower a == asciiLower b) := by
  unfold charLike
  rw [asciiLower_idem, asciiLower_idem]

theorem noWildcardL_low (s : List Char) (h : noWildcardL s) :
    noWildcardL (s.map asciiLower) := by
  intro c hc
  rcases List.mem_map.mp hc with ⟨c0, hc0, rfl⟩
  obtain ⟨h1, h2⟩ := h c0 hc0
  rw [asciiLower_toNat]
  split
  · next h3 => exact ⟨by omega, by omega⟩
  · exact ⟨h1, h2⟩

theorem likeMatch_pct_one : ∀ t, likeMatch ['%'] t = true := by
  intro t
  induction t with
  | nil => simp [likeMatch]
  | cons c ts ih => simp [likeMatch, ih]

theorem likeMatch_lit : ∀ (s : List Char), noWildcardL s →
    ∀ t, likeMatch (s ++ ['%']) t = isPrefixLike s t := by
  intro s
  induction s with
  | nil =>
    intro _ t
    rw [List.nil_append, likeMatch_pct_one]
    rfl
  | cons a s ih =>
    intro hs t
    have ha : a.toNat ≠ 37 ∧ a.toNat ≠ 95 := hs a (List.mem_cons_self a s)
    have ha1 : ¬ a = '%' := fun he => ha.1 (by rw [he]; rfl)
    have ha2 : ¬ a = '_' := fun he => ha.2 (by rw [he]; rfl)
    have hs2 : noWildcardL s := fun c hc => hs c (List.mem_cons_of_mem a hc)
    rw [List.cons_append]
    cases t with
    | nil =>
      simp only [likeMatch]
      rw [if_neg ha1]
      rfl
    | cons c ts =>
      simp only [likeMatch]
      rw [if_neg ha1, if_neg ha2]
      show (charLike a c && likeMatch (s ++ ['%']) ts) = isPrefixLike (a :: s) (c :: ts)
      rw [ih hs2 ts]
      rfl

theorem likeMatch_pct_sub (s : List Char) (hs : noWildcardL s) :
    ∀ t, likeMatch ('%' :: (s ++ ['%'])) t = isSubLike s t := by
  intro t
  induction t with
  | nil =>
    simp only [likeMatch]
    rw [if_pos trivial, likeMatch_lit s hs []]
    show (isPrefixLike s [] || false) = isSubLike s []
    rw [Bool.or_false]
    rfl
  | cons c ts ih =>
    simp only [likeMatch]
    rw [if_pos trivial, likeMatch_lit s hs (c :: ts)]
    show (isPrefixLike s (c :: ts) || likeMatch ('%' :: (s ++ ['%'])) ts)
        = isSubLike s (c :: ts)
    rw [ih]
    rfl

theorem isPrefixLike_low : ∀ (s t : List Char),
    isPrefixLike (s.map asciiLower) (t.map asciiLower)
      = isPrefixCh (s.map asciiLower) (t.map asciiLower) := by
  intro s
  induction s with
  | nil => intro t; rfl
  | cons a s ih =>
    intro t
    cases t with
    | nil => rfl
    | cons b t =>
      simp only [List.map_cons, isPrefixLike, isPrefixCh, charLike_low, ih t]

theorem isSubLike_low : ∀ (t s : List Char),
    isSubLike (s.map asciiLower) (t.map asciiLower)
      = isSub (s.map asciiLower) (t.map asciiLower) := by
  intro t
  induction t with
  | nil =>
    intro s
    show isPrefixLike (s.map asciiLower) [] = isPrefixCh (s.map asciiLower) []
    have h := isPrefixLike_low s []
    simpa using h
  | cons c ts ih =>
    intro s
    simp only [List.map_cons, isSubLike, isSub]
    rw [ih s, ← List.map_cons asciiLower c ts, isPrefixLike_low s (c :: ts)]

/-- C4 amended.  `search_books` never raises and always returns a list: for
every outcome of the FTS5 attempt (including the error the bare `except:`
absorbs when the index is absent or the query is not valid FTS5 syntax) an
admitted result exists; a query matching no book yields the empty list on
either path; and for ASCII queries free of `LIKE` wildcards the fallback's
match condition is exactly case-insensitive substring matching of the query
over title and author.  The ASCII hypothesis is what makes `lowList q` the
program's `query.lower()` (Python's and SQLite's lowerings agree there); the
wildcard hypothesis is forced because the query is spliced into the `LIKE`
pattern.  Both restrictions are forced by `search_fallback_wildcard_cex`. -/
theorem search_books_fallback_spec :
    (∀ (fts : FtsOutcome) (db : DB) (q : String) (limit : Nat),
        ∃ out, search_books fts db q limit out) ∧
    (∀ (m : BookRow → Bool) (bm25 : BookRow → Int) (db : DB) (q : String) (limit : Nat)
        (out : List BookRow), search_books (FtsOutcome.ok m bm25) db q limit out →
        db.books.filter m = [] → out = []) ∧
    (∀ (qlow : List Char) (db : DB) (q : String) (limit : Nat) (out : List BookRow),
        search_books (FtsOutcome.err qlow) db q limit out →
        db.books.filter (fallbackMatch qlow) = [] → out = []) ∧
    (∀ (q : String), isAscii q → noWildcard q →
        ∀ b, fallbackMatch (lowList q) b = ciSubstrMatch q b) := by
  refine ⟨?_, ?_, ?_, ?_⟩
  · intro fts db q limit
    cases fts with
    | ok m bm25 =>
      haveI : IsTotal BookRow (ftsOrd bm25) := ⟨ftsOrd_total bm25⟩
      haveI : IsTrans BookRow (ftsOrd bm25) := ⟨fun _ _ _ => ftsOrd_trans bm25⟩
      exact ⟨(List.insertionSort (ftsOrd bm25) (db.books.filter m)).take limit,
        List.insertionSort (ftsOrd bm25) (db.books.filter m),
        List.perm_insertionSort _ _, List.sorted_insertionSort _ _, rfl⟩
    | err qlow =>
      haveI : IsTotal BookRow dlOrd := ⟨dlOrd_total⟩
      haveI : IsTrans BookRow dlOrd := ⟨fun _ _ _ => dlOrd_trans⟩
      exact ⟨(List.insertionSort dlOrd (db.books.filter (fallbackMatch qlow))).take limit,
        List.insertionSort dlOrd (db.books.filter (fallbackMatch qlow)),
        List.perm_insertionSort _ _, List.sorted_insertionSort _ _, rfl⟩
  · rintro m bm25 db q limit out ⟨full, hperm, _, rfl⟩ hfil
    rw [hfil] at hperm
    rw [hperm.eq_nil]
    exact List.take_nil
  · rintro qlow db q limit out ⟨full, hperm, _, rfl⟩ hfil
    rw [hfil] at hperm
    rw [hperm.eq_nil]
    exact List.take_nil
  · intro q _ hq b
    have hfb : ∀ tl : String, likeMatch ('%' :: (lowList q ++ ['%'])) (lowList tl)
        = isSub (lowList q) (lowList tl) := by
      intro tl
      rw [likeMatch_pct_sub (lowList q) (noWildcardL_low q.data hq)]
      show isSubLike (q.data.map asciiLower) (tl.data.map asciiLower)
          = isSub (lowList q) (lowList tl)
      rw [isSubLike_low tl.data q.data]
      rfl
    unfold fallbackMatch ciSubstrMatch
    rw [hfb b.title, hfb b.author]

/-- Witness for C4 (amended theorem): an ASCII, wildcard-free query agrees
with substring matching at a concrete book, and an admitted fallback result
exists for a concrete store. -/
theorem search_books_fallback_spec_witness :
    fallbackMatch (lowList "ab") cexBook = ciSubstrMatch "ab" cexBook ∧
    (∃ out, search_books (FtsOutcome.err (lowList "zz")) cexDB "zz" 5 out) :=
  ⟨search_books_fallback_spec.2.2.2 "ab" (by decide) (by decide) cexBook,
   search_books_fallback_spec.1 (FtsOutcome.err (lowList "zz")) cexDB "zz" 5⟩

theorem likeMatch_tripct : ∀ t, likeMatch ['%', '%', '%'] t = true := by
  intro t
  induction t with
  | nil => simp [likeMatch]
  | cons c ts ih => simp [likeMatch, ih, likeMatch_pct_one]

/-- C4 counterexample.  The claim says the fallback performs case-insensitive
substring matching of the query.  Two failure modes refute it as stated.
(1) Wildcards: the query text is spliced into the `LIKE` pattern, so its
`%`/`_` act as wildcards — the FTS5 attempt on query `"%"` raises a syntax
error (no bareword; `query.lower()` leaves `"%"` unchanged), the fallback
pattern becomes `%%%`, and the code returns the book titled `"abc"` though
`"%"` is a substring of neither its title nor its author.
(2) Asymmetric case folding: for query `"А"` (Cyrillic capital) Python's
`query.lower()` produces `"а"`, but SQLite's `lower()` leaves the title
`"АБВ"` unchanged and `LIKE` folds only ASCII, so the program finds no match
— `lower('АБВ') LIKE '%а%'` is 0 — though `"А"` is case-insensitively a
substring of the title. -/
theorem search_fallback_wildcard_cex :
    (search_books (FtsOutcome.err (lowList "%")) cexDB "%" 20 [cexBook] ∧
      ciSubstrMatch "%" cexBook = false) ∧
    (fallbackMatch ['а'] cyrBook = false ∧ ciSubstrMatch "А" cyrBook = true) := by
  refine ⟨⟨?_, by decide⟩, ?_, by decide⟩
  · have hm : fallbackMatch (lowList "%") cexBook = true := by
      unfold fallbackMatch
      rw [show ('%' :: (lowList "%" ++ ['%'])) = ['%', '%', '%'] from by decide]
      rw [likeMatch_tripct, likeMatch_tripct]
      rfl
    have hfil : cexDB.books.filter (fallbackMatch (lowList "%")) = [cexBook] := by
      show List.filter (fallbackMatch (lowList "%")) [cexBook] = [cexBook]
      rw [List.filter_cons, if_pos hm]
      rfl
    refine ⟨[cexBook], ?_, List.pairwise_singleton _ _, rfl⟩
    rw [hfil]
  · unfold fallbackMatch
    rw [likeMatch_pct_sub ['а'] (by decide) (lowList cyrBook.title),
        likeMatch_pct_sub ['а'] (by decide) (lowList cyrBook.author)]
    decide

end DbPy
